import Mathlib

/-!
# A shallow embedding of the `chat-v1` real-time engine (`backend/src/server.js`)

This file embeds the Socket.io portion of `server.js` (lines 337-425): the
connected-socket set, the `connectedUsers` registry (`Map` from socket id to
user id), the Mongo-backed message store, and the four event handlers
(`authenticate`, `send_message`, `typing`, `disconnect`).

Each handler is embedded as a function producing a list of primitive
`Action`s in exactly the order the source performs them (emits, registry
mutations, persistence).  `runActions` folds the actions over a server state
and records every delivered `(socketId, payload)` pair, where
`socket.emit` delivers to one socket, `io.emit` to every currently
connected socket, and `socket.broadcast.emit` to every connected socket
except the sender.

External effects are parameters: the durable store's availability is a
`Bool` (`saveOk` / `dbOk`), and `jwt.verify` is an `Option Nat` (`some uid`
when verification returns a payload with id `uid`, `none` when it throws on
a malformed or expired token).
-/

namespace ChatServer

/-- A user record of the `User` mongoose model (server.js 47-53), the
fields the socket handlers read or write. -/
structure UserRec where
  _id : Nat
  nickname : String
  lastSeen : Nat
deriving DecidableEq

/-- A persisted message of the `Message` mongoose model (server.js 55-60):
`_id` and `timestamp` are assigned at persistence. -/
structure MessageRec where
  _id : Nat
  userId : Nat
  nickname : String
  text : String
  timestamp : Nat
deriving DecidableEq

/-- A connected socket.  `auth` bundles `socket.userId` and
`socket.nickname`, which server.js 353-354 always sets together on
successful authentication and which are absent on a fresh connection. -/
structure Socket where
  id : Nat
  auth : Option (Nat × String)
deriving DecidableEq

/-- The server's mutable state: connected sockets, the `connectedUsers`
map (server.js 337, association list keyed by socket id), the message
collection in insertion order, the user collection, plus the id counter
and clock with which Mongo assigns `_id` and `timestamp` at persistence. -/
structure ServerState where
  sockets : List Socket
  connectedUsers : List (Nat × Nat)
  messages : List MessageRec
  users : List UserRec
  nextMsgId : Nat
  now : Nat
deriving DecidableEq

/-- Every wire payload the socket handlers emit (spec §6 event table). -/
inductive Payload where
  | message_history (msgs : List MessageRec)
  | authenticatedEv (nickname : String)
  | auth_error (err : String)
  | user_joined (nickname : String)
  | user_left (nickname : String)
  | new_message (m : MessageRec)
  | user_typing (nickname : String)
  | errorEv (err : String)
deriving DecidableEq

/-- A primitive effect of a handler, in source order. -/
inductive Action where
  | setSocketUser (sid : Nat) (userId : Nat) (nickname : String)
  | registrySet (sid : Nat) (userId : Nat)
  | registryDelete (sid : Nat)
  | touchLastSeen (userId : Nat)
  | persistMessage (m : MessageRec)
  | emitTo (sid : Nat) (p : Payload)
  | emitAll (p : Payload)
  | emitBroadcast (sid : Nat) (p : Payload)
  | closeSocket (sid : Nat)
deriving DecidableEq

def socketIds (st : ServerState) : List Nat :=
  st.sockets.map (fun s => s.id)

def lookupSocket (st : ServerState) (sid : Nat) : Option Socket :=
  st.sockets.find? (fun s => s.id == sid)

/-- `Map.set` on the `connectedUsers` association list: overwrites the
value when the key is already present, appends otherwise. -/
def mapSet (m : List (Nat × Nat)) (k v : Nat) : List (Nat × Nat) :=
  if m.any (fun p => p.1 == k) then
    m.map (fun p => if p.1 == k then (k, v) else p)
  else
    m ++ [(k, v)]

/-- `Map.delete` on the `connectedUsers` association list. -/
def mapDelete (m : List (Nat × Nat)) (k : Nat) : List (Nat × Nat) :=
  m.filter (fun p => p.1 != k)

/-- The sort key of `Message.find().sort({ timestamp: -1 })`: timestamp
descending. -/
def tsDesc (a b : MessageRec) : Prop :=
  b.timestamp ≤ a.timestamp

instance : DecidableRel tsDesc := fun a b => Nat.decLe b.timestamp a.timestamp

instance : IsTotal MessageRec tsDesc :=
  ⟨fun a b => Nat.le_total b.timestamp a.timestamp⟩

instance : IsTrans MessageRec tsDesc :=
  ⟨fun _ _ _ h₁ h₂ => Nat.le_trans h₂ h₁⟩

/-- `Message.find().sort({ timestamp: -1 }).limit(limit)` followed by
`.reverse()` (server.js 362-367): a timestamp-descending sort of the
collection, truncated to `limit`, then reversed to oldest-first. -/
def recentMessages (msgs : List MessageRec) (limit : Nat) : List MessageRec :=
  ((List.insertionSort tsDesc msgs).take limit).reverse

def findUser (users : List UserRec) (uid : Nat) : Option UserRec :=
  users.find? (fun u => u._id == uid)

/-- Applying one primitive action: the successor state plus the deliveries
it causes.  `io.emit` reaches every currently connected socket,
`socket.broadcast.emit` every connected socket except the sender, and a
`socket.emit` on a closed socket delivers nothing. -/
def applyAction (st : ServerState) (a : Action) : ServerState × List (Nat × Payload) :=
  match a with
  | .setSocketUser sid uid nick =>
    ({ st with sockets := st.sockets.map (fun s =>
        if s.id == sid then { s with auth := some (uid, nick) } else s) }, [])
  | .registrySet sid uid =>
    ({ st with connectedUsers := mapSet st.connectedUsers sid uid }, [])
  | .registryDelete sid =>
    ({ st with connectedUsers := mapDelete st.connectedUsers sid }, [])
  | .touchLastSeen uid =>
    ({ st with users := st.users.map (fun u =>
        if u._id == uid then { u with lastSeen := st.now } else u) }, [])
  | .persistMessage m =>
    ({ st with messages := st.messages ++ [m],
               nextMsgId := st.nextMsgId + 1,
               now := st.now + 1 }, [])
  | .emitTo sid p =>
    (st, if sid ∈ socketIds st then [(sid, p)] else [])
  | .emitAll p =>
    (st, (socketIds st).map (fun i => (i, p)))
  | .emitBroadcast sid p =>
    (st, ((socketIds st).filter (fun i => i != sid)).map (fun i => (i, p)))
  | .closeSocket sid =>
    ({ st with sockets := st.sockets.filter (fun s => s.id != sid) }, [])

def runActions (st : ServerState) (acts : List Action) : ServerState × List (Nat × Payload) :=
  acts.foldl (fun acc a =>
    let r := applyAction acc.1 a
    (r.1, acc.2 ++ r.2)) (st, [])

/-- The deliveries of a run addressed to socket `sid`, payloads in order. -/
def payloadsTo (ds : List (Nat × Payload)) (sid : Nat) : List Payload :=
  (ds.filter (fun d => d.1 == sid)).map (fun d => d.2)

/-- The `disconnect` handler body (server.js 418-424): only when the
socket had authenticated, `io.emit("user_left", ...)` and then
`connectedUsers.delete(socket.id)` — in that order. -/
def disconnectHandler (s : Socket) : List Action :=
  match s.auth with
  | some (_, nick) => [Action.emitAll (Payload.user_left nick), Action.registryDelete s.id]
  | none => []

/-- Transport close of socket `sid`: the socket leaves the connected set
and then its `disconnect` handler runs. -/
def closeActions (st : ServerState) (sid : Nat) : List Action :=
  match lookupSocket st sid with
  | some s => Action.closeSocket sid :: disconnectHandler s
  | none => []

/-- The `authenticate` handler (server.js 343-379).  `token` is the
outcome of `jwt.verify`: `some uid` on success, `none` when it throws
(malformed or expired token).  `dbOk` models the durable store being
reachable for the awaited `user.save()` / `Message.find()` inside the
`try`; when it is `false` the `catch` branch runs after the socket fields
and the registry entry were already set.  `socket.disconnect()` fires the
`disconnect` handler, so every failure branch ends with the close
actions of the socket in its state at that point. -/
def authenticateHandler (st : ServerState) (sid : Nat) (token : Option Nat)
    (dbOk : Bool) : List Action :=
  match lookupSocket st sid with
  | none => []
  | some _ =>
    match token with
    | none =>
      Action.emitTo sid (Payload.auth_error "Недействительный токен") :: closeActions st sid
    | some uid =>
      match findUser st.users uid with
      | none =>
        Action.emitTo sid (Payload.auth_error "Пользователь не найден") :: closeActions st sid
      | some u =>
        if dbOk then
          [Action.setSocketUser sid u._id u.nickname,
           Action.registrySet sid u._id,
           Action.touchLastSeen u._id,
           Action.emitTo sid (Payload.message_history (recentMessages st.messages 50)),
           Action.emitTo sid (Payload.authenticatedEv u.nickname),
           Action.emitAll (Payload.user_joined u.nickname)]
        else
          [Action.setSocketUser sid u._id u.nickname,
           Action.registrySet sid u._id,
           Action.emitTo sid (Payload.auth_error "Недействительный токен"),
           Action.closeSocket sid,
           Action.emitAll (Payload.user_left u.nickname),
           Action.registryDelete sid]

/-- The `Message` document the `send_message` handler constructs
(server.js 388-392), with the id and timestamp the store assigns it at
persistence. -/
def builtMessage (st : ServerState) (uid : Nat) (nick text : String) : MessageRec :=
  { _id := st.nextMsgId, userId := uid, nickname := nick,
    text := text, timestamp := st.now }

/-- The `send_message` handler (server.js 382-408).  The guard is
`if (!socket.userId)`.  The stored text is `messageData.text` verbatim —
no trimming.  `saveOk` models the durable store being reachable for
`message.save()`; mongoose's `required: true` on `text` additionally
rejects the empty string, so the save resolves iff the store is up and
the text is non-empty; on rejection the `catch` emits `error` to the
sender and nothing is broadcast. -/
def sendMessageHandler (st : ServerState) (sid : Nat) (text : String)
    (saveOk : Bool) : List Action :=
  match lookupSocket st sid with
  | none => []
  | some s =>
    match s.auth with
    | none => [Action.emitTo sid (Payload.errorEv "Не авторизован")]
    | some (uid, nick) =>
      if saveOk && text != "" then
        [Action.persistMessage (builtMessage st uid nick text),
         Action.emitAll (Payload.new_message (builtMessage st uid nick text))]
      else
        [Action.emitTo sid (Payload.errorEv "Ошибка отправки сообщения")]

/-- The `typing` handler (server.js 411-415): an authenticated socket
broadcasts `user_typing` to everyone but itself; an unauthenticated
socket does nothing at all. -/
def typingHandler (st : ServerState) (sid : Nat) : List Action :=
  match lookupSocket st sid with
  | none => []
  | some s =>
    match s.auth with
    | some (_, nick) => [Action.emitBroadcast sid (Payload.user_typing nick)]
    | none => []

def onAuthenticate (st : ServerState) (sid : Nat) (token : Option Nat)
    (dbOk : Bool) : ServerState × List (Nat × Payload) :=
  runActions st (authenticateHandler st sid token dbOk)

def onSendMessage (st : ServerState) (sid : Nat) (text : String)
    (saveOk : Bool) : ServerState × List (Nat × Payload) :=
  runActions st (sendMessageHandler st sid text saveOk)

def onTyping (st : ServerState) (sid : Nat) : ServerState × List (Nat × Payload) :=
  runActions st (typingHandler st sid)

def onDisconnect (st : ServerState) (sid : Nat) : ServerState × List (Nat × Payload) :=
  runActions st (closeActions st sid)

/-- A new transport connection (server.js 339): an unauthenticated socket
joins the connected set. -/
def onConnection (st : ServerState) (sid : Nat) : ServerState :=
  { st with sockets := st.sockets ++ [{ id := sid, auth := none }] }

/-! ### Concrete states used by witnesses and counterexamples -/

def aliceU : UserRec := { _id := 7, nickname := "alice", lastSeen := 0 }

def bobU : UserRec := { _id := 8, nickname := "bob", lastSeen := 0 }

/-- Sockets 1 (alice) and 2 (bob) authenticated and registered, socket 3
connected but never authenticated; empty message store. -/
def stW : ServerState :=
  { sockets := [{ id := 1, auth := some (7, "alice") },
                { id := 2, auth := some (8, "bob") },
                { id := 3, auth := none }],
    connectedUsers := [(1, 7), (2, 8)],
    messages := [],
    users := [aliceU, bobU],
    nextMsgId := 0,
    now := 0 }

/-- Socket 1 fresh (unauthenticated), socket 2 authenticated as bob. -/
def stFresh : ServerState :=
  { sockets := [{ id := 1, auth := none },
                { id := 2, auth := some (8, "bob") }],
    connectedUsers := [(2, 8)],
    messages := [],
    users := [aliceU, bobU],
    nextMsgId := 0,
    now := 0 }

/-- Sixty persisted messages with strictly increasing timestamps. -/
def msgs60 : List MessageRec :=
  (List.range 60).map (fun i =>
    { _id := i, userId := 7, nickname := "alice", text := "m", timestamp := i })

/-- `stFresh` with sixty messages already persisted. -/
def st60 : ServerState :=
  { stFresh with messages := msgs60 }

example : onTyping stW 3 = (stW, []) := by decide

example :
    payloadsTo (onAuthenticate stFresh 1 (some 7) true).2 1
      = [Payload.message_history [], Payload.authenticatedEv "alice",
         Payload.user_joined "alice"] := by decide

example :
    (onSendMessage stW 1 "hi" true).1.messages
      = [{ _id := 0, userId := 7, nickname := "alice", text := "hi", timestamp := 0 }] := by
  decide

/-! ### Supporting lemmas -/

lemma lookupSocket_id_mem {st : ServerState} {sid : Nat} {s : Socket}
    (h : lookupSocket st sid = some s) : s.id = sid ∧ sid ∈ socketIds st := by
  have hm := List.mem_of_find?_eq_some h
  have hp := List.find?_some h
  have hid : s.id = sid := by simpa using hp
  refine ⟨hid, ?_⟩
  simpa [socketIds, hid] using List.mem_map_of_mem (fun x => x.id) hm

/-- On a duplicate-free list, filtering for one present element yields
exactly that element. -/
lemma filter_beq_singleton : ∀ {l : List Nat} {a : Nat}, l.Nodup → a ∈ l →
    l.filter (fun x => x == a) = [a] := by
  intro l
  induction l with
  | nil => intro a _ ha; cases ha
  | cons b t ih =>
    intro a hnd ha
    have hb : b ∉ t := (List.nodup_cons.mp hnd).1
    have ht : t.Nodup := (List.nodup_cons.mp hnd).2
    rcases List.mem_cons.mp ha with h | h
    · subst h
      have : t.filter (fun x => x == a) = [] := by
        apply List.filter_eq_nil_iff.mpr
        intro x hx
        simp only [beq_iff_eq]
        intro hxa
        exact hb (hxa ▸ hx)
      simp [List.filter_cons, this]
    · have hba : ¬(b = a) := fun hba => hb (hba ▸ h)
      simp [List.filter_cons, hba, ih ht h]

/-- A weakly timestamp-descending list and a strictly timestamp-descending
list that are permutations of one another are equal. -/
lemma perm_sorted_desc_unique : ∀ {l₁ l₂ : List MessageRec}, l₁.Perm l₂ →
    l₁.Pairwise tsDesc →
    l₂.Pairwise (fun a b => b.timestamp < a.timestamp) → l₁ = l₂ := by
  intro l₁
  induction l₁ with
  | nil =>
    intro l₂ hp _ _
    exact hp.nil_eq
  | cons a t₁ ih =>
    intro l₂ hp h₁ h₂
    cases l₂ with
    | nil => exact absurd hp.symm.nil_eq (by simp)
    | cons b t₂ =>
      have hab : a = b := by
        rcases List.mem_cons.mp (hp.subset (List.mem_cons_self a t₁)) with h | h
        · exact h
        · exfalso
          have halt : a.timestamp < b.timestamp :=
            (List.pairwise_cons.mp h₂).1 a h
          rcases List.mem_cons.mp (hp.symm.subset (List.mem_cons_self b t₂)) with h' | h'
          · exact Nat.lt_irrefl _ (h' ▸ halt)
          · have : b.timestamp ≤ a.timestamp := (List.pairwise_cons.mp h₁).1 b h'
            exact Nat.lt_irrefl _ (Nat.lt_of_lt_of_le halt this)
      subst hab
      have ht : t₁ = t₂ :=
        ih hp.cons_inv (List.pairwise_cons.mp h₁).2 (List.pairwise_cons.mp h₂).2
      rw [ht]

/-- Sorting a strictly timestamp-ascending list by descending timestamp
reverses it. -/
lemma insertionSort_desc_of_ascending {msgs : List MessageRec}
    (h : msgs.Pairwise (fun a b => a.timestamp < b.timestamp)) :
    List.insertionSort tsDesc msgs = msgs.reverse := by
  apply perm_sorted_desc_unique
  · exact (List.perm_insertionSort tsDesc msgs).trans (List.reverse_perm msgs).symm
  · exact List.sorted_insertionSort tsDesc msgs
  · exact (List.pairwise_reverse).mpr h

/-- On a strictly timestamp-ascending store, the history query returns the
last `limit` entries in storage order. -/
lemma recentMessages_of_ascending {msgs : List MessageRec} {limit : Nat}
    (h : msgs.Pairwise (fun a b => a.timestamp < b.timestamp)) :
    recentMessages msgs limit = msgs.drop (msgs.length - limit) := by
  rw [recentMessages, insertionSort_desc_of_ascending h, List.take_reverse,
    List.reverse_reverse]

/-- The history query returns at most `limit` messages. -/
lemma recentMessages_length_le (msgs : List MessageRec) (limit : Nat) :
    (recentMessages msgs limit).length ≤ limit := by
  simp [recentMessages]

/-- The history query returns a weakly timestamp-ascending list. -/
lemma recentMessages_sorted (msgs : List MessageRec) (limit : Nat) :
    (recentMessages msgs limit).Pairwise (fun a b => a.timestamp ≤ b.timestamp) := by
  rw [recentMessages]
  apply (List.pairwise_reverse).mpr
  have hs : (List.insertionSort tsDesc msgs).Pairwise tsDesc :=
    List.sorted_insertionSort tsDesc msgs
  exact hs.sublist (List.take_sublist _ _)

/-- Setting a socket's auth fields does not change its id. -/
lemma id_setAuth (a : Socket) (sid uid : Nat) (nick : String) :
    (if a.id = sid then { id := a.id, auth := some (uid, nick) } else a).id = a.id := by
  split <;> rfl

/-- Deliveries of a successful `authenticate`: history and `authenticated`
to the caller, then `user_joined` to every connected socket. -/
lemma onAuthenticate_success_deliveries
    (st : ServerState) (sid uid : Nat) (s : Socket) (u : UserRec)
    (hs : lookupSocket st sid = some s)
    (hu : findUser st.users uid = some u) :
    (onAuthenticate st sid (some uid) true).2
      = [(sid, Payload.message_history (recentMessages st.messages 50)),
         (sid, Payload.authenticatedEv u.nickname)]
        ++ (socketIds st).map (fun i => (i, Payload.user_joined u.nickname)) := by
  obtain ⟨hid, hmem⟩ := lookupSocket_id_mem hs
  have hmem' : ∃ a ∈ st.sockets, a.id = sid := by
    simpa [socketIds] using hmem
  simp [onAuthenticate, authenticateHandler, hs, hu, runActions, applyAction,
    socketIds, Function.comp_def, id_setAuth, hmem']

/-- Registry contents after a successful `authenticate`: a `Map.set`. -/
lemma onAuthenticate_success_registry
    (st : ServerState) (sid uid : Nat) (s : Socket) (u : UserRec)
    (hs : lookupSocket st sid = some s)
    (hu : findUser st.users uid = some u) :
    (onAuthenticate st sid (some uid) true).1.connectedUsers
      = mapSet st.connectedUsers sid u._id := by
  simp [onAuthenticate, authenticateHandler, hs, hu, runActions, applyAction]

/-! ### Claims -/

/-- C1: for every `send_message` from an authenticated connection the
pipeline persists the message first; if persistence fails it emits
`error` to the sender only and broadcasts nothing; once persistence
succeeds it broadcasts the fully formed message (with its assigned id and
timestamp) as `new_message` to every session in the registry snapshot,
including the sender. -/
theorem sendMessage_persist_then_broadcast
    (st : ServerState) (sid uid : Nat) (nick text : String) (s : Socket)
    (hs : lookupSocket st sid = some s)
    (hauth : s.auth = some (uid, nick))
    (htext : text ≠ "")
    (hreg : ∀ p ∈ st.connectedUsers, p.1 ∈ socketIds st) :
    onSendMessage st sid text false
        = (st, [(sid, Payload.errorEv "Ошибка отправки сообщения")]) ∧
    sendMessageHandler st sid text true
        = [Action.persistMessage (builtMessage st uid nick text),
           Action.emitAll (Payload.new_message (builtMessage st uid nick text))] ∧
    (onSendMessage st sid text true).1.messages
        = st.messages ++ [builtMessage st uid nick text] ∧
    (onSendMessage st sid text true).2
        = (socketIds st).map (fun i => (i, Payload.new_message (builtMessage st uid nick text))) ∧
    (sid, Payload.new_message (builtMessage st uid nick text)) ∈ (onSendMessage st sid text true).2 ∧
    ∀ p ∈ st.connectedUsers,
      (p.1, Payload.new_message (builtMessage st uid nick text)) ∈ (onSendMessage st sid text true).2 := by
  obtain ⟨hid, hmem⟩ := lookupSocket_id_mem hs
  have hhand : sendMessageHandler st sid text true
      = [Action.persistMessage (builtMessage st uid nick text),
         Action.emitAll (Payload.new_message (builtMessage st uid nick text))] := by
    simp [sendMessageHandler, hs, hauth, htext]
  have hds : (onSendMessage st sid text true).2
      = (socketIds st).map (fun i => (i, Payload.new_message (builtMessage st uid nick text))) := by
    simp [onSendMessage, hhand, runActions, applyAction, socketIds]
  refine ⟨?_, hhand, ?_, hds, ?_, ?_⟩
  · simp [onSendMessage, sendMessageHandler, hs, hauth, runActions, applyAction, hmem]
  · simp [onSendMessage, hhand, runActions, applyAction]
  · rw [hds]
    exact List.mem_map_of_mem _ hmem
  · intro p hp
    rw [hds]
    exact List.mem_map_of_mem _ (hreg p hp)

/-- Witness for `sendMessage_persist_then_broadcast`: `stW`, socket 1
(alice), text `"hi"`. -/
theorem sendMessage_persist_then_broadcast_witness :
    (lookupSocket stW 1 = some { id := 1, auth := some (7, "alice") } ∧
     ("hi" : String) ≠ "" ∧ ∀ p ∈ stW.connectedUsers, p.1 ∈ socketIds stW) ∧
    (onSendMessage stW 1 "hi" false
        = (stW, [(1, Payload.errorEv "Ошибка отправки сообщения")]) ∧
     (onSendMessage stW 1 "hi" true).1.messages
        = stW.messages ++ [builtMessage stW 7 "alice" "hi"]) :=
  ⟨by decide, by
    have h := sendMessage_persist_then_broadcast stW 1 7 "alice" "hi"
      { id := 1, auth := some (7, "alice") } (by decide) (by decide) (by decide) (by decide)
    exact ⟨h.1, h.2.2.1⟩⟩

/-- C2 (amended): for every valid token whose identity is found, the
server emits to the caller exactly one `message_history` (at most 50
messages, non-decreasing timestamps) followed by exactly one
`authenticated`, and then the `user_joined` broadcast also reaches the
caller; the claimed order (`authenticated` before `message_history`) is
reversed in the code. -/
theorem authenticate_emits_history_then_authenticated
    (st : ServerState) (sid uid : Nat) (s : Socket) (u : UserRec)
    (hs : lookupSocket st sid = some s)
    (hu : findUser st.users uid = some u)
    (hnd : (socketIds st).Nodup) :
    payloadsTo (onAuthenticate st sid (some uid) true).2 sid
      = [Payload.message_history (recentMessages st.messages 50),
         Payload.authenticatedEv u.nickname,
         Payload.user_joined u.nickname] ∧
    (recentMessages st.messages 50).length ≤ 50 ∧
    (recentMessages st.messages 50).Pairwise (fun a b => a.timestamp ≤ b.timestamp) := by
  obtain ⟨hid, hmem⟩ := lookupSocket_id_mem hs
  refine ⟨?_, recentMessages_length_le _ _, recentMessages_sorted _ _⟩
  rw [onAuthenticate_success_deliveries st sid uid s u hs hu]
  simp only [payloadsTo, List.filter_append, List.map_append, List.filter_map]
  have hf : (socketIds st).filter (fun x => x == sid) = [sid] :=
    filter_beq_singleton hnd hmem
  simp [List.filter_cons, Function.comp_def, hf]

/-- Counterexample to C2 as stated: the first event the caller receives
after a valid `authenticate` is `message_history`, not `authenticated` —
server.js 367-368 emit them in that order. -/
theorem authenticate_order_counterexample :
    payloadsTo (onAuthenticate stFresh 1 (some 7) true).2 1
      = [Payload.message_history [], Payload.authenticatedEv "alice",
         Payload.user_joined "alice"] ∧
    (payloadsTo (onAuthenticate stFresh 1 (some 7) true).2 1).head?
      ≠ some (Payload.authenticatedEv "alice") := by
  decide

/-- Witness for `authenticate_emits_history_then_authenticated`:
`stFresh`, socket 1, alice's token. -/
theorem authenticate_emits_history_then_authenticated_witness :
    (lookupSocket stFresh 1 = some { id := 1, auth := none } ∧
     findUser stFresh.users 7 = some aliceU ∧ (socketIds stFresh).Nodup) ∧
    payloadsTo (onAuthenticate stFresh 1 (some 7) true).2 1
      = [Payload.message_history (recentMessages stFresh.messages 50),
         Payload.authenticatedEv aliceU.nickname,
         Payload.user_joined aliceU.nickname] :=
  ⟨by decide, (authenticate_emits_history_then_authenticated stFresh 1 7
      { id := 1, auth := none } aliceU (by decide) (by decide) (by decide)).1⟩

/-- C3: the `message_history` emitted on authentication matches persisted
storage order exactly, limited to the most recent 50 messages, oldest
first; with 60 persisted messages it is exactly the last 50 of the store
(the store's timestamps are strictly increasing, as the pipeline assigns
them from an advancing clock). -/
theorem history_replay_last_50
    (st : ServerState) (sid uid : Nat) (s : Socket) (u : UserRec)
    (hs : lookupSocket st sid = some s)
    (hu : findUser st.users uid = some u)
    (hts : st.messages.Pairwise (fun a b => a.timestamp < b.timestamp)) :
    (sid, Payload.message_history (st.messages.drop (st.messages.length - 50)))
        ∈ (onAuthenticate st sid (some uid) true).2 ∧
    (st.messages.length = 60 →
      (sid, Payload.message_history (st.messages.drop 10))
          ∈ (onAuthenticate st sid (some uid) true).2 ∧
      (st.messages.drop 10).length = 50) := by
  have hds := onAuthenticate_success_deliveries st sid uid s u hs hu
  have hrw : recentMessages st.messages 50 = st.messages.drop (st.messages.length - 50) :=
    recentMessages_of_ascending hts
  have hin : (sid, Payload.message_history (st.messages.drop (st.messages.length - 50)))
      ∈ (onAuthenticate st sid (some uid) true).2 := by
    rw [hds, ← hrw]
    exact List.mem_append_left _ (List.mem_cons_self _ _)
  refine ⟨hin, fun h60 => ⟨?_, ?_⟩⟩
  · have : st.messages.length - 50 = 10 := by rw [h60]
    rwa [this] at hin
  · rw [List.length_drop, h60]

/-- Witness for `history_replay_last_50`: `st60` (sixty persisted
messages with strictly increasing timestamps), socket 1, alice's token. -/
theorem history_replay_last_50_witness :
    (lookupSocket st60 1 = some { id := 1, auth := none } ∧
     findUser st60.users 7 = some aliceU ∧
     st60.messages.Pairwise (fun a b => a.timestamp < b.timestamp) ∧
     st60.messages.length = 60) ∧
    ((1, Payload.message_history (st60.messages.drop 10))
        ∈ (onAuthenticate st60 1 (some 7) true).2 ∧
     (st60.messages.drop 10).length = 50) :=
  ⟨⟨by decide, by decide, by decide, by decide⟩,
    (history_replay_last_50 st60 1 7 { id := 1, auth := none } aliceU
      (by decide) (by decide) (by decide)).2 (by decide)⟩

/-- Counterexample to C4 as stated: whitespace-only text is persisted
and broadcast verbatim — server.js 391 stores `messageData.text` without
trimming, and mongoose's `required` only rejects the empty string. -/
theorem whitespace_message_persisted :
    (onSendMessage stW 1 " " true).1.messages
      = [{ _id := 0, userId := 7, nickname := "alice", text := " ", timestamp := 0 }] ∧
    payloadsTo (onSendMessage stW 1 " " true).2 1
      = [Payload.new_message
          { _id := 0, userId := 7, nickname := "alice", text := " ", timestamp := 0 }] := by
  decide

/-- C4 (amended): the text is not trimmed; only text equal to the empty
string is rejected — its save fails validation, the sender gets `error`
and nothing is persisted — while any non-empty text, whitespace-only
included, is persisted verbatim. -/
theorem sendMessage_no_trim
    (st : ServerState) (sid uid : Nat) (nick : String) (s : Socket)
    (hs : lookupSocket st sid = some s)
    (hauth : s.auth = some (uid, nick)) :
    (∀ saveOk, onSendMessage st sid "" saveOk
        = (st, [(sid, Payload.errorEv "Ошибка отправки сообщения")])) ∧
    (∀ text, text ≠ "" → (onSendMessage st sid text true).1.messages
        = st.messages ++ [builtMessage st uid nick text]) := by
  obtain ⟨hid, hmem⟩ := lookupSocket_id_mem hs
  constructor
  · intro saveOk
    simp [onSendMessage, sendMessageHandler, hs, hauth, runActions, applyAction, hmem]
  · intro text htext
    simp [onSendMessage, sendMessageHandler, hs, hauth, htext, runActions, applyAction]

/-- Witness for `sendMessage_no_trim`: `stW`, socket 1, empty text
rejected, `" "` persisted verbatim. -/
theorem sendMessage_no_trim_witness :
    (lookupSocket stW 1 = some { id := 1, auth := some (7, "alice") }) ∧
    onSendMessage stW 1 "" true = (stW, [(1, Payload.errorEv "Ошибка отправки сообщения")]) ∧
    (onSendMessage stW 1 " " true).1.messages = stW.messages ++ [builtMessage stW 7 "alice" " "] :=
  ⟨by decide,
    (sendMessage_no_trim stW 1 7 "alice" { id := 1, auth := some (7, "alice") }
      (by decide) (by decide)).1 true,
    (sendMessage_no_trim stW 1 7 "alice" { id := 1, auth := some (7, "alice") }
      (by decide) (by decide)).2 " " (by decide)⟩

/-- Counterexample to C5 as stated: socket 1 is already authenticated as
alice and registered, yet a second `authenticate` with bob's token is
processed in full — the registry entry is overwritten to `(1, 8)` rather
than the insert being rejected, and history replay plus the `user_joined`
broadcast happen a second time. -/
theorem second_authenticate_not_rejected :
    (onAuthenticate stW 1 (some 8) true).1.connectedUsers = [(1, 8), (2, 8)] ∧
    payloadsTo (onAuthenticate stW 1 (some 8) true).2 1
      = [Payload.message_history [], Payload.authenticatedEv "bob",
         Payload.user_joined "bob"] := by
  decide

/-- C5 (amended): the server has no guard against a second `authenticate`
on an already-authenticated connection: the handler runs its full success
path again — socket fields rebound, `Map.set` overwrites the registry
entry in place (no new entry when the key is present), history and
`authenticated` re-emitted, `user_joined` re-broadcast. -/
theorem second_authenticate_reprocessed
    (st : ServerState) (sid uid uid0 : Nat) (nick0 : String) (s : Socket) (u : UserRec)
    (hs : lookupSocket st sid = some s)
    (_hauth : s.auth = some (uid0, nick0))
    (hu : findUser st.users uid = some u) :
    authenticateHandler st sid (some uid) true
      = [Action.setSocketUser sid u._id u.nickname,
         Action.registrySet sid u._id,
         Action.touchLastSeen u._id,
         Action.emitTo sid (Payload.message_history (recentMessages st.messages 50)),
         Action.emitTo sid (Payload.authenticatedEv u.nickname),
         Action.emitAll (Payload.user_joined u.nickname)] ∧
    (onAuthenticate st sid (some uid) true).1.connectedUsers
      = mapSet st.connectedUsers sid u._id ∧
    (sid ∈ st.connectedUsers.map (fun p => p.1) →
      (mapSet st.connectedUsers sid u._id).length = st.connectedUsers.length) := by
  refine ⟨by simp [authenticateHandler, hs, hu],
    onAuthenticate_success_registry st sid uid s u hs hu, ?_⟩
  intro hk
  have hany : st.connectedUsers.any (fun p => p.1 == sid) = true := by
    rw [List.any_eq_true]
    rcases List.mem_map.mp hk with ⟨p, hp, hpe⟩
    exact ⟨p, hp, by simpa using hpe⟩
  simp [mapSet, hany]

/-- Witness for `second_authenticate_reprocessed`: `stW`, socket 1
(already alice), bob's token. -/
theorem second_authenticate_reprocessed_witness :
    (lookupSocket stW 1 = some { id := 1, auth := some (7, "alice") } ∧
     findUser stW.users 8 = some bobU ∧ 1 ∈ stW.connectedUsers.map (fun p => p.1)) ∧
    ((onAuthenticate stW 1 (some 8) true).1.connectedUsers
        = mapSet stW.connectedUsers 1 bobU._id ∧
     (mapSet stW.connectedUsers 1 bobU._id).length = stW.connectedUsers.length) :=
  ⟨by decide, by
    have h := second_authenticate_reprocessed stW 1 8 7 "alice"
      { id := 1, auth := some (7, "alice") } bobU (by decide) (by decide) (by decide)
    exact ⟨h.2.1, h.2.2 (by decide)⟩⟩

/-- Counterexample to C6 as stated: the newly authenticated caller itself
receives the `user_joined` broadcast — server.js 371 uses `io.emit`, not
`socket.broadcast.emit`. -/
theorem user_joined_echoed_to_caller :
    (1, Payload.user_joined "alice") ∈ (onAuthenticate stFresh 1 (some 7) true).2 ∧
    payloadsTo (onAuthenticate stFresh 1 (some 7) true).2 1
      = [Payload.message_history [], Payload.authenticatedEv "alice",
         Payload.user_joined "alice"] := by
  decide

/-- C6 (amended): after a successful authenticate, `user_joined` (with
the display name) is broadcast to every connected socket — including the
newly authenticated caller itself. -/
theorem user_joined_broadcast_includes_caller
    (st : ServerState) (sid uid : Nat) (s : Socket) (u : UserRec)
    (hs : lookupSocket st sid = some s)
    (hu : findUser st.users uid = some u) :
    (∀ i ∈ socketIds st,
      (i, Payload.user_joined u.nickname) ∈ (onAuthenticate st sid (some uid) true).2) ∧
    (sid, Payload.user_joined u.nickname) ∈ (onAuthenticate st sid (some uid) true).2 := by
  obtain ⟨hid, hmem⟩ := lookupSocket_id_mem hs
  have hds := onAuthenticate_success_deliveries st sid uid s u hs hu
  have hall : ∀ i ∈ socketIds st,
      (i, Payload.user_joined u.nickname) ∈ (onAuthenticate st sid (some uid) true).2 := by
    intro i hi
    rw [hds]
    exact List.mem_append_right _ (List.mem_map_of_mem _ hi)
  exact ⟨hall, hall sid hmem⟩

/-- Witness for `user_joined_broadcast_includes_caller`: `stFresh`,
socket 1, alice's token. -/
theorem user_joined_broadcast_includes_caller_witness :
    (lookupSocket stFresh 1 = some { id := 1, auth := none } ∧
     findUser stFresh.users 7 = some aliceU) ∧
    (1, Payload.user_joined aliceU.nickname) ∈ (onAuthenticate stFresh 1 (some 7) true).2 :=
  ⟨by decide, (user_joined_broadcast_includes_caller stFresh 1 7
      { id := 1, auth := none } aliceU (by decide) (by decide)).2⟩

/-- Counterexample to C7 as stated: a `typing` event on an
unauthenticated connection is silently ignored — no `error` signal is
emitted (server.js 411-415 has no else branch). -/
theorem unauthenticated_typing_silent :
    onTyping stW 3 = (stW, []) ∧
    payloadsTo (onTyping stW 3).2 3 = [] := by
  decide

/-- C7 (amended): `send_message` on an unauthenticated connection is
rejected with an `error` signal and has no other side effect; `typing` on
an unauthenticated connection also has no side effect but is silently
dropped without any `error` signal. -/
theorem unauthenticated_event_handling
    (st : ServerState) (sid : Nat) (s : Socket)
    (hs : lookupSocket st sid = some s)
    (hauth : s.auth = none) :
    (∀ text saveOk, onSendMessage st sid text saveOk
        = (st, [(sid, Payload.errorEv "Не авторизован")])) ∧
    onTyping st sid = (st, []) := by
  obtain ⟨hid, hmem⟩ := lookupSocket_id_mem hs
  constructor
  · intro text saveOk
    simp [onSendMessage, sendMessageHandler, hs, hauth, runActions, applyAction, hmem]
  · simp [onTyping, typingHandler, hs, hauth, runActions]

/-- Witness for `unauthenticated_event_handling`: `stW`, socket 3 (never
authenticated). -/
theorem unauthenticated_event_handling_witness :
    (lookupSocket stW 3 = some { id := 3, auth := none }) ∧
    onSendMessage stW 3 "hi" true = (stW, [(3, Payload.errorEv "Не авторизован")]) ∧
    onTyping stW 3 = (stW, []) :=
  ⟨by decide,
    (unauthenticated_event_handling stW 3 { id := 3, auth := none }
      (by decide) (by decide)).1 "hi" true,
    (unauthenticated_event_handling stW 3 { id := 3, auth := none }
      (by decide) (by decide)).2⟩

/-- Counterexample to C8 as stated: in the disconnect handler the
`user_left` broadcast happens before the registry entry is deleted
(server.js 420-421), not after the removal as the claim orders it. -/
theorem user_left_emitted_before_registry_delete :
    closeActions stW 1
      = [Action.closeSocket 1, Action.emitAll (Payload.user_left "alice"),
         Action.registryDelete 1] ∧
    (closeActions stW 1)[1]? = some (Action.emitAll (Payload.user_left "alice")) ∧
    (closeActions stW 1)[2]? = some (Action.registryDelete 1) := by
  decide

/-- C8 (amended): when an authenticated connection closes, exactly one
`user_left` with the correct display name is broadcast to all remaining
live sessions and then (not before) the Session is removed from the
registry; the entry is absent immediately after the handler; a
never-authenticated connection's disconnect emits nothing. -/
theorem disconnect_user_left_then_delete
    (st : ServerState) (sid : Nat) (s : Socket)
    (hs : lookupSocket st sid = some s) :
    (∀ uid nick, s.auth = some (uid, nick) →
      closeActions st sid
        = [Action.closeSocket sid, Action.emitAll (Payload.user_left nick),
           Action.registryDelete sid] ∧
      (onDisconnect st sid).2
        = ((socketIds st).filter (fun i => i != sid)).map
            (fun i => (i, Payload.user_left nick)) ∧
      (onDisconnect st sid).1.connectedUsers = mapDelete st.connectedUsers sid ∧
      ∀ v, (sid, v) ∉ (onDisconnect st sid).1.connectedUsers) ∧
    (s.auth = none →
      onDisconnect st sid
        = ({ st with sockets := st.sockets.filter (fun x => x.id != sid) }, [])) := by
  obtain ⟨hid, hmem⟩ := lookupSocket_id_mem hs
  constructor
  · intro uid nick hauth
    have htr : closeActions st sid
        = [Action.closeSocket sid, Action.emitAll (Payload.user_left nick),
           Action.registryDelete sid] := by
      simp [closeActions, hs, disconnectHandler, hauth, hid]
    have hreg : (onDisconnect st sid).1.connectedUsers = mapDelete st.connectedUsers sid := by
      simp [onDisconnect, htr, runActions, applyAction]
    refine ⟨htr, ?_, hreg, ?_⟩
    · simp [onDisconnect, htr, runActions, applyAction, socketIds, List.filter_map,
        Function.comp_def, List.map_map]
    · intro v hv
      rw [hreg] at hv
      simp [mapDelete, List.mem_filter] at hv
  · intro hauth
    simp [onDisconnect, closeActions, hs, disconnectHandler, hauth, runActions, applyAction]

/-- Witness for `disconnect_user_left_then_delete`: `stW`, socket 1
(alice). -/
theorem disconnect_user_left_then_delete_witness :
    (lookupSocket stW 1 = some { id := 1, auth := some (7, "alice") }) ∧
    ((onDisconnect stW 1).2
        = ((socketIds stW).filter (fun i => i != 1)).map
            (fun i => (i, Payload.user_left "alice")) ∧
     (onDisconnect stW 1).1.connectedUsers = mapDelete stW.connectedUsers 1) :=
  ⟨by decide, by
    have h := ((disconnect_user_left_then_delete stW 1
      { id := 1, auth := some (7, "alice") } (by decide)).1) 7 "alice" rfl
    exact ⟨h.2.1, h.2.2.1⟩⟩

/-- C9: for a malformed or expired token, and for a valid token whose
identity is not found, `authenticate` emits exactly one `auth_error`,
terminates the connection, and creates no Presence Registry entry. -/
theorem auth_failure_single_error_no_entry
    (st : ServerState) (sid : Nat) (s : Socket) (dbOk : Bool)
    (hs : lookupSocket st sid = some s)
    (hfresh : s.auth = none) :
    ((onAuthenticate st sid none dbOk).2
        = [(sid, Payload.auth_error "Недействительный токен")] ∧
     (onAuthenticate st sid none dbOk).1.connectedUsers = st.connectedUsers ∧
     sid ∉ socketIds (onAuthenticate st sid none dbOk).1) ∧
    (∀ uid, findUser st.users uid = none →
      (onAuthenticate st sid (some uid) dbOk).2
          = [(sid, Payload.auth_error "Пользователь не найден")] ∧
      (onAuthenticate st sid (some uid) dbOk).1.connectedUsers = st.connectedUsers ∧
      sid ∉ socketIds (onAuthenticate st sid (some uid) dbOk).1) := by
  obtain ⟨hid, hmem⟩ := lookupSocket_id_mem hs
  constructor
  · refine ⟨?_, ?_, ?_⟩
    · simp [onAuthenticate, authenticateHandler, hs, closeActions, disconnectHandler,
        hfresh, runActions, applyAction, hmem]
    · simp [onAuthenticate, authenticateHandler, hs, closeActions, disconnectHandler,
        hfresh, runActions, applyAction]
    · simp [onAuthenticate, authenticateHandler, hs, closeActions, disconnectHandler,
        hfresh, runActions, applyAction, socketIds, List.mem_filter]
  · intro uid hu
    refine ⟨?_, ?_, ?_⟩
    · simp [onAuthenticate, authenticateHandler, hs, hu, closeActions, disconnectHandler,
        hfresh, runActions, applyAction, hmem]
    · simp [onAuthenticate, authenticateHandler, hs, hu, closeActions, disconnectHandler,
        hfresh, runActions, applyAction]
    · simp [onAuthenticate, authenticateHandler, hs, hu, closeActions, disconnectHandler,
        hfresh, runActions, applyAction, socketIds, List.mem_filter]

/-- Witness for `auth_failure_single_error_no_entry`: `stFresh`, socket 1,
a token that fails verification and a token whose user id (99) does not
exist. -/
theorem auth_failure_single_error_no_entry_witness :
    (lookupSocket stFresh 1 = some { id := 1, auth := none } ∧
     findUser stFresh.users 99 = none) ∧
    ((onAuthenticate stFresh 1 none true).2
        = [(1, Payload.auth_error "Недействительный токен")] ∧
     (onAuthenticate stFresh 1 (some 99) true).2
        = [(1, Payload.auth_error "Пользователь не найден")]) :=
  ⟨by decide, by
    have h := auth_failure_single_error_no_entry stFresh 1 { id := 1, auth := none } true
      (by decide) (by decide)
    exact ⟨h.1.1, (h.2 99 (by decide)).1⟩⟩

/-- C10: the broadcast events `new_message`, `user_joined` and
`user_left` are delivered to every currently connected socket — including
a connection that never authenticated and holds no registry entry; the
recipient set is all open connections, not the registry snapshot. -/
theorem broadcasts_reach_all_connected
    (st : ServerState) (osid : Nat) (o : Socket)
    (ho : lookupSocket st osid = some o)
    (_hofresh : o.auth = none)
    (_honoreg : ∀ p ∈ st.connectedUsers, p.1 ≠ osid) :
    (∀ sid uid nick text s, lookupSocket st sid = some s → s.auth = some (uid, nick) →
        text ≠ "" →
        (osid, Payload.new_message (builtMessage st uid nick text))
          ∈ (onSendMessage st sid text true).2) ∧
    (∀ sid uid s u, lookupSocket st sid = some s → findUser st.users uid = some u →
        (osid, Payload.user_joined u.nickname) ∈ (onAuthenticate st sid (some uid) true).2) ∧
    (∀ sid uid nick s, sid ≠ osid → lookupSocket st sid = some s →
        s.auth = some (uid, nick) →
        (osid, Payload.user_left nick) ∈ (onDisconnect st sid).2) := by
  obtain ⟨hoid, homem⟩ := lookupSocket_id_mem ho
  refine ⟨?_, ?_, ?_⟩
  · intro sid uid nick text s hs hauth htext
    have hds : (onSendMessage st sid text true).2
        = (socketIds st).map
            (fun i => (i, Payload.new_message (builtMessage st uid nick text))) := by
      simp [onSendMessage, sendMessageHandler, hs, hauth, htext, runActions,
        applyAction, socketIds]
    rw [hds]
    exact List.mem_map_of_mem _ homem
  · intro sid uid s u hs hu
    rw [onAuthenticate_success_deliveries st sid uid s u hs hu]
    exact List.mem_append_right _ (List.mem_map_of_mem _ homem)
  · intro sid uid nick s hne hs hauth
    have hid2 := (lookupSocket_id_mem hs).1
    have htr : closeActions st sid
        = [Action.closeSocket sid, Action.emitAll (Payload.user_left nick),
           Action.registryDelete sid] := by
      simp [closeActions, hs, disconnectHandler, hauth, hid2]
    have hds : (onDisconnect st sid).2
        = (st.sockets.filter (fun x => x.id != sid)).map
            (fun x => (x.id, Payload.user_left nick)) := by
      simp [onDisconnect, htr, runActions, applyAction, socketIds, List.map_map,
        Function.comp_def]
    rw [hds]
    have hom : o ∈ st.sockets := List.mem_of_find?_eq_some ho
    have hof : o ∈ st.sockets.filter (fun x => x.id != sid) := by
      simp [List.mem_filter, hom, hoid]
      exact Ne.symm hne
    simpa [hoid] using List.mem_map_of_mem (fun x => (x.id, Payload.user_left nick)) hof

/-- Witness for `broadcasts_reach_all_connected`: `stW`, where socket 3 is
connected, never authenticated and absent from the registry, and socket 1
is alice. -/
theorem broadcasts_reach_all_connected_witness :
    (lookupSocket stW 3 = some { id := 3, auth := none } ∧
     ∀ p ∈ stW.connectedUsers, p.1 ≠ 3) ∧
    ((3, Payload.new_message (builtMessage stW 7 "alice" "hi"))
        ∈ (onSendMessage stW 1 "hi" true).2 ∧
     (3, Payload.user_joined bobU.nickname) ∈ (onAuthenticate stW 1 (some 8) true).2 ∧
     (3, Payload.user_left "alice") ∈ (onDisconnect stW 1).2) :=
  ⟨by decide, by
    have h := broadcasts_reach_all_connected stW 3 { id := 3, auth := none }
      (by decide) rfl (by decide)
    exact ⟨h.1 1 7 "alice" "hi" { id := 1, auth := some (7, "alice") }
        (by decide) rfl (by decide),
      h.2.1 1 8 { id := 1, auth := some (7, "alice") } bobU (by decide) (by decide),
      h.2.2 1 7 "alice" { id := 1, auth := some (7, "alice") }
        (by decide) (by decide) rfl⟩⟩

end ChatServer
